import Mathlib

/-!
Verification development for the PokePacks packing-list generator
(src/src/App.jsx).  The pure core of the application is shallowly
embedded below: date parsing and trip-day arithmetic, the overall trip
window, the weather aggregator, the clothing-quantity calculator, the
packing rule engine, the item consolidator (filter, merge, sort) and
the bag-override layer.

Modelling conventions:
- JavaScript numbers are modelled as integers (`Int`); every numeric
  value the core manipulates on its intended domain is an integer.
  `Math.ceil(d / c)` on integers with `c ≠ 0` is modelled exactly by
  `jsCeilDiv`; the single expressible non-finite result
  (`Math.ceil(days / 0) = Infinity` when `days > 0`) is modelled by the
  extended-integer type `EInt` used for item quantities.
- A possibly-non-numeric input (`Number(v)` not finite, i.e. NaN) is
  modelled as `Option Int` with `none` for the non-numeric case.
- JavaScript string comparison (`<` on strings, and `localeCompare` as
  used by the sort comparator) is modelled by code-point lexicographic
  comparison `strLt`; on the engine's vocabulary (BMP strings whose
  first differing characters are ASCII) this coincides with both the
  code-unit order of `<` and the locale order of `localeCompare`.
- `parseISODateToUTC` is modelled on the grammar actually produced by
  the application's date inputs: either `""` or a ten-character
  `YYYY-MM-DD` string.  A string that JavaScript would turn into an
  Invalid Date (whose arithmetic then yields 0 trip days) is mapped to
  `none`, which yields the same 0 trip days.
- `Array.prototype.sort` with the three-field comparator is modelled by
  a stable insertion sort over the induced total preorder `itemRel`.
- The JavaScript `Map` used for merging is modelled by an
  insertion-ordered association list; its string key
  `` bag + "__" + category + "__" + name `` is modelled as the triple
  `(bag, category, name)`, which is injective on the engine's
  vocabulary (no field contains `"__"`).
-/

/-! ### String ordering (code-point lexicographic, models JS `<`) -/

def charListLt : List Char → List Char → Bool
  | _, [] => false
  | [], _ :: _ => true
  | x :: xs, y :: ys => if x < y then true else if y < x then false else charListLt xs ys

def strLt (a b : String) : Bool := charListLt a.data b.data

def strLe (a b : String) : Bool := !strLt b a

/-! ### Extended integers (item quantities; `inf` models JS Infinity) -/

inductive EInt where
  | fin (n : Int)
  | inf
deriving DecidableEq

/-- jsCeilDiv models `Math.ceil(d / c)` for integers `d`, `c` with `c ≠ 0`
(the `c = 0` case is handled at the call site, producing `EInt.inf`). -/
def jsCeilDiv (d c : Int) : Int :=
  if 0 < c then -((-d).fdiv c) else -(d.fdiv (-c))

def EInt.add : EInt → EInt → EInt
  | fin a, fin b => fin (a + b)
  | _, _ => inf

def EInt.isPos : EInt → Bool
  | fin n => decide (0 < n)
  | inf => true

def EInt.leB : EInt → EInt → Bool
  | fin a, fin b => decide (a ≤ b)
  | _, inf => true
  | inf, fin _ => false

instance : LE EInt := ⟨fun a b => EInt.leB a b = true⟩

instance (a b : EInt) : Decidable (a ≤ b) :=
  inferInstanceAs (Decidable (EInt.leB a b = true))

/-- EInt.maxE models `Math.max` on the modelled values. -/
def EInt.maxE : EInt → EInt → EInt
  | fin a, fin b => fin (max a b)
  | _, _ => inf

/-- EInt.minE models `Math.min` on the modelled values. -/
def EInt.minE : EInt → EInt → EInt
  | fin a, fin b => fin (min a b)
  | fin a, inf => fin a
  | inf, b => b

/-- EInt.ceilHalf models `Math.ceil(x / 2)`. -/
def EInt.ceilHalf : EInt → EInt
  | fin n => fin (jsCeilDiv n 2)
  | inf => inf

/-! ### Date parsing and trip-day arithmetic (App.jsx lines 10-23) -/

/-- Day count from 1970-01-01 for a civil date (Gregorian calendar),
the day-level counterpart of `new Date("YYYY-MM-DDT00:00:00Z").getTime()`;
the epoch-millisecond value is this times 86400000. -/
def daysFromCivil (y m d : Int) : Int :=
  let yAdj := if m ≤ 2 then y - 1 else y
  let era := (if 0 ≤ yAdj then yAdj else yAdj - 399).ediv 400
  let yoe := yAdj - era * 400
  let mp := (m + 9).emod 12
  let doy := (153 * mp + 2).ediv 5 + d - 1
  let doe := yoe * 365 + yoe.ediv 4 - yoe.ediv 100 + doy
  era * 146097 + doe - 719468

def isLeapYear (y : Int) : Bool :=
  (y.emod 4 = 0 && y.emod 100 ≠ 0) || y.emod 400 = 0

def daysInMonth (y m : Int) : Int :=
  if m = 2 then (if isLeapYear y then 29 else 28)
  else if m = 4 || m = 6 || m = 9 || m = 11 then 30
  else 31

def digitVal (c : Char) : Int := Int.ofNat (c.toNat - 48)

/-- parseISODateToUTC models `parseISODateToUTC` (App.jsx lines 10-13): it
returns the epoch day of the parsed calendar date, `none` for the empty
string, and `none` for any string that does not denote a valid
`YYYY-MM-DD` date (JavaScript would produce an Invalid Date there, whose
downstream NaN arithmetic gives the same 0 trip days). -/
def parseISODateToUTC (s : String) : Option Int :=
  match s.data with
  | [y1, y2, y3, y4, '-', m1, m2, '-', d1, d2] =>
    if y1.isDigit && y2.isDigit && y3.isDigit && y4.isDigit &&
       m1.isDigit && m2.isDigit && d1.isDigit && d2.isDigit then
      let y := digitVal y1 * 1000 + digitVal y2 * 100 + digitVal y3 * 10 + digitVal y4
      let m := digitVal m1 * 10 + digitVal m2
      let d := digitVal d1 * 10 + digitVal d2
      if 1 ≤ m && m ≤ 12 && 1 ≤ d && d ≤ daysInMonth y m then
        some (daysFromCivil y m d)
      else none
    else none
  | _ => none

/-- tripDaysInclusive models `tripDaysInclusive` (App.jsx lines 15-23);
`getTime()` of a parsed date is its epoch day times 86400000. -/
def tripDaysInclusive (startISO endISO : String) : Int :=
  match parseISODateToUTC startISO, parseISODateToUTC endISO with
  | some s, some e =>
    let ms := e * 86400000 - s * 86400000
    let daysDiff := ms.fdiv 86400000
    if 0 ≤ daysDiff then daysDiff + 1 else 0
  | _, _ => 0

/-! ### Segments and derived aggregates (App.jsx lines 30-85) -/

/-- Segment carries the fields of one trip leg that the pure core reads.
Temperature fields hold the result of `safeParseNumber`: `none` models a
non-numeric or empty input. -/
structure Segment where
  startDate : String
  endDate : String
  tempMin : Option Int
  tempMax : Option Int
  rainLikely : Bool
  hotSunLikely : Bool
  humidLikely : Bool
deriving DecidableEq

/-- startDatesOf models `segments.map((s) => s.startDate).filter(Boolean)`:
the empty string is the only falsy start-date value. -/
def startDatesOf (segments : List Segment) : List String :=
  (segments.map Segment.startDate).filter (fun s => decide (s ≠ ""))

/-- endDatesOf models `segments.map((s) => s.endDate).filter(Boolean)`. -/
def endDatesOf (segments : List Segment) : List String :=
  (segments.map Segment.endDate).filter (fun s => decide (s ≠ ""))

/-- foldMin models `starts.reduce((min, d) => (d < min ? d : min), a)`. -/
def foldMin (a : String) (l : List String) : String :=
  l.foldl (fun mn d => if strLt d mn then d else mn) a

/-- foldMax models `ends.reduce((max, d) => (d > max ? d : max), a)`. -/
def foldMax (a : String) (l : List String) : String :=
  l.foldl (fun mx d => if strLt mx d then d else mx) a

/-- computeOverallTripWindow models App.jsx lines 30-38.  The reduce
with initial element `starts[0]` revisits `starts[0]`, i.e. it is a fold
over the whole filtered list starting from its head. -/
def computeOverallTripWindow (segments : List Segment) : String × String :=
  match startDatesOf segments, endDatesOf segments with
  | [], _ => ("", "")
  | _ :: _, [] => ("", "")
  | s0 :: _, e0 :: _ =>
    (foldMin s0 (startDatesOf segments), foldMax e0 (endDatesOf segments))

structure WeatherSummary where
  overallMin : Option Int
  overallMax : Option Int
  anyRain : Bool
  anySun : Bool
  anyHumid : Bool
deriving DecidableEq

/-- computeWeatherSummary models App.jsx lines 40-60. -/
def computeWeatherSummary (segments : List Segment) : WeatherSummary :=
  segments.foldl
    (fun acc s =>
      { overallMin :=
          match s.tempMin, acc.overallMin with
          | some t, some m => some (min m t)
          | some t, none => some t
          | none, m => m
        overallMax :=
          match s.tempMax, acc.overallMax with
          | some t, some m => some (max m t)
          | some t, none => some t
          | none, m => m
        anyRain := acc.anyRain || s.rainLikely
        anySun := acc.anySun || s.hotSunLikely
        anyHumid := acc.anyHumid || s.humidLikely })
    ⟨none, none, false, false, false⟩

structure ClothesMath where
  days : Int
  washCount : Int
  cycles : Int
  baseSets : EInt
  setsNeeded : EInt
deriving DecidableEq

/-- clothesMathOfDays is the day-count-level body of `computeClothesMath`
(App.jsx lines 74-85): `washCount` keeps a finite wash input as is and
replaces a non-numeric one by 0; `cycles = washCount + 1`;
`baseSets = Math.ceil(days / cycles)` when `days > 0` (Infinity when
`cycles = 0`), else 0; the spare set adds 1. -/
def clothesMathOfDays (days : Int) (washes : Option Int) (includeSpareSet : Bool) : ClothesMath :=
  let washCount : Int := match washes with | some n => n | none => 0
  let cycles := washCount + 1
  let baseSets : EInt :=
    if 0 < days then (if cycles = 0 then EInt.inf else EInt.fin (jsCeilDiv days cycles))
    else EInt.fin 0
  let setsNeeded := if includeSpareSet then baseSets.add (EInt.fin 1) else baseSets
  ⟨days, washCount, cycles, baseSets, setsNeeded⟩

/-- computeClothesMath models App.jsx lines 74-85. -/
def computeClothesMath (startISO endISO : String) (washes : Option Int)
    (includeSpareSet : Bool) : ClothesMath :=
  clothesMathOfDays (tripDaysInclusive startISO endISO) washes includeSpareSet

/-! ### Items, consolidation, sorting (App.jsx lines 88-109, 277-282) -/

structure Item where
  category : String
  name : String
  quantity : EInt
  bag : String
deriving DecidableEq

/-- packItem models `packItem` (App.jsx lines 88-90); every call site in
the engine passes all four arguments explicitly. -/
def packItem (category name : String) (quantity : EInt) (bag : String) : Item :=
  ⟨category, name, quantity, bag⟩

/-- stableKey models `stableKey` (App.jsx lines 93-95): the
bag-independent identity key used by the override layer. -/
def stableKey (it : Item) : String := it.category ++ "__" ++ it.name

/-- mergeKey is the deduplication key of `uniqItemsByBag`
(`` `${it.bag}__${it.category}__${it.name}` ``), modelled as the triple,
which is injective on the engine's vocabulary. -/
def mergeKey (it : Item) : String × String × String := (it.bag, it.category, it.name)

/-- orOne models the JS truthiness default `q || 1` (0 is falsy). -/
def orOne (q : EInt) : EInt := if q = EInt.fin 0 then EInt.fin 1 else q

/-- insertOne models one `map.set` step of `uniqItemsByBag`: an existing
key keeps its position and accumulates quantity, a new key is appended.
The association-list invariant (at most one entry per key) is maintained
because an entry is appended only when its key is absent.  The spread
`{ ...it, quantity: it.quantity ?? 1 }` is `it` itself, since the model
always has a quantity. -/
def bump (it e : Item) : Item :=
  if mergeKey e = mergeKey it then
    { e with quantity := (orOne e.quantity).add (orOne it.quantity) }
  else e

def insertOne (acc : List Item) (it : Item) : List Item :=
  if acc.any (fun e => decide (mergeKey e = mergeKey it)) then acc.map (bump it)
  else acc ++ [it]

/-- uniqItemsByBag models App.jsx lines 97-109. -/
def uniqItemsByBag (items : List Item) : List Item := items.foldl insertOne []

/-- itemLE is the ordering induced by the sort comparator of App.jsx
lines 278-282 (bag, then category, then name): `a` may come before `b`
iff the comparator does not return a positive value. -/
def itemLE (a b : Item) : Bool :=
  if a.bag = b.bag then
    (if a.category = b.category then strLe a.name b.name
     else strLt a.category b.category)
  else strLt a.bag b.bag

def itemRel (a b : Item) : Prop := itemLE a b = true

instance : DecidableRel itemRel :=
  fun a b => inferInstanceAs (Decidable (itemLE a b = true))

/-- sortItems models the stable `Array.prototype.sort` call with the
three-field comparator. -/
def sortItems (l : List Item) : List Item := List.insertionSort itemRel l

/-- consolidate models App.jsx lines 277-282: drop non-positive
quantities, merge by `(bag, category, name)` summing quantities, then
sort by bag, category, name. -/
def consolidate (l : List Item) : List Item :=
  sortItems (uniqItemsByBag (l.filter (fun x => x.quantity.isPos)))

/-! ### The packing rule engine (App.jsx lines 111-283) -/

/-- GenState carries exactly the fields `generatePackingList`
destructures from its argument (App.jsx lines 142-155);
`pokemonGoNeeded` is computed by the caller as "any segment has its
per-segment flag set". -/
structure GenState where
  segments : List Segment
  washes : Option Int
  includeSpareSet : Bool
  pokemonGoNeeded : Bool
  altAccount : Bool
  eggWalker : Bool
  tradeList : Bool
  partnerPokemon : Bool
  isInternational : Bool
  isJapanTrip : Bool
  bringTablet : Bool
  bringWorkLaptop : Bool

/-- condList models a conditional block of `items.push(...)` calls. -/
def condList (b : Bool) (l : List Item) : List Item := if b then l else []

/-- tempLeB models `t !== null && t <= k`. -/
def tempLeB (t : Option Int) (k : Int) : Bool :=
  match t with
  | some m => decide (m ≤ k)
  | none => false

/-- tempGeB models `t !== null && t >= k`. -/
def tempGeB (t : Option Int) (k : Int) : Bool :=
  match t with
  | some m => decide (k ≤ m)
  | none => false

/-- addWeatherClothes models App.jsx lines 111-139, as the list of items
the function pushes, in push order. -/
def addWeatherClothes (minT maxT : Option Int) (rainLikely hotSunLikely : Bool) : List Item :=
  (match minT with
   | none => []
   | some m =>
     (if m ≤ 5 then
        [packItem "Clothes" "Warm jacket" (EInt.fin 1) "checked",
         packItem "Clothes" "Warm layer (jumper or hoodie)" (EInt.fin 1) "checked"]
      else if m ≤ 12 then
        [packItem "Clothes" "Light jacket" (EInt.fin 1) "checked",
         packItem "Clothes" "Warm layer (jumper or hoodie)" (EInt.fin 1) "checked"]
      else if m ≤ 16 then
        [packItem "Clothes" "Light layer (jumper or cardigan)" (EInt.fin 1) "checked"]
      else [])
     ++ (if m ≤ 10 then
           [packItem "Clothes" "Beanie" (EInt.fin 1) "checked",
            packItem "Clothes" "Scarf" (EInt.fin 1) "checked",
            packItem "Clothes" "Gloves" (EInt.fin 1) "checked"]
         else []))
  ++ condList rainLikely [packItem "Clothes" "Umbrella or rain jacket" (EInt.fin 1) "checked"]
  ++ condList hotSunLikely [packItem "Clothes" "Sunglasses" (EInt.fin 1) "checked"]
  ++ (match maxT with
      | none => []
      | some t =>
        if 32 ≤ t then [packItem "Clothes" "Hat" (EInt.fin 1) "checked"]
        else if 28 ≤ t then [packItem "Clothes" "Hat (optional)" (EInt.fin 1) "checked"]
        else [])

/-- rawItemsCore is the pre-consolidation accumulator list of
`generatePackingList` (App.jsx lines 161-275), in exact push order. -/
def rawItemsCore (st : GenState) (maths : ClothesMath) (weather : WeatherSummary) : List Item :=
  [packItem "Tech" "Main iPhone" (EInt.fin 1) "carryOn",
   packItem "Tech" "Apple Watch" (EInt.fin 1) "carryOn",
   packItem "Tech" "AirPods" (EInt.fin 1) "carryOn",
   packItem "Tech" "Viture neckband" (EInt.fin 1) "carryOn",
   packItem "Tech" "Viture glasses" (EInt.fin 1) "carryOn"]
  ++ condList st.bringTablet [packItem "Tech" "Tablet" (EInt.fin 1) "carryOn"]
  ++ condList st.bringWorkLaptop [packItem "Tech" "Work laptop" (EInt.fin 1) "carryOn"]
  ++ [packItem "Tech" "iPhone charger" (EInt.fin 1) "checked",
      packItem "Tech" "iPhone charging cable" (EInt.fin 1) "carryOn",
      packItem "Tech" "Apple Watch charger" (EInt.fin 1) "checked"]
  ++ condList st.bringTablet
       [packItem "Tech" "Tablet charger" (EInt.fin 1) "checked",
        packItem "Tech" "Tablet charging cable" (EInt.fin 1) "checked"]
  ++ condList st.bringWorkLaptop [packItem "Tech" "Laptop charger" (EInt.fin 1) "checked"]
  ++ condList st.isInternational
       [packItem "Tech" "Travel adapter" (EInt.fin 1) "checked",
        packItem "Tech" "Chromecast" (EInt.fin 1) "checked"]
  ++ condList st.isInternational
       [packItem "Documents" "Passport" (EInt.fin 1) "carryOn",
        packItem "Money" "Currency for destination (if you have any)" (EInt.fin 1) "carryOn",
        packItem "Money" "Money pouch" (EInt.fin 1) "carryOn",
        packItem "Documents" "Australian customs form (blank)" (EInt.fin 1) "carryOn",
        packItem "Documents" "Pen" (EInt.fin 1) "carryOn"]
  ++ condList st.isJapanTrip [packItem "Misc" "Eki stamp book" (EInt.fin 1) "carryOn"]
  ++ [packItem "Misc" "Pillow" (EInt.fin 1) "checked",
      packItem "Toiletries" "Toothbrush" (EInt.fin 1) "checked",
      packItem "Toiletries" "Toothpaste" (EInt.fin 1) "checked",
      packItem "Toiletries" "Deodorant" (EInt.fin 1) "checked",
      packItem "Toiletries" "Face masks" (EInt.fin 1) "carryOn",
      packItem "Toiletries" "Travel hand sanitiser (100ml or less)" (EInt.fin 1) "carryOn",
      packItem "Toiletries" "Body wash" (EInt.fin 1) "checked",
      packItem "Toiletries" "Beard wash" (EInt.fin 1) "checked",
      packItem "Toiletries" "Vitamins" (EInt.fin 1) "checked",
      packItem "Toiletries" "Paracetamol" (EInt.fin 1) "carryOn",
      packItem "Toiletries" "Band aids" (EInt.fin 1) "checked",
      packItem "Toiletries" "Lip balm" (EInt.fin 1) "carryOn",
      packItem "Toiletries" "Condoms" (EInt.fin 1) "checked"]
  ++ condList (decide (0 < maths.days))
       ([packItem "Clothes" "Underwear" maths.setsNeeded "checked",
         packItem "Clothes" "Socks" maths.setsNeeded "checked",
         packItem "Clothes" "Tops" maths.setsNeeded "checked"]
        ++ condList (tempLeB weather.overallMin 18)
             [packItem "Clothes" "Jeans (or other long pants)" (EInt.fin 1) "checked"]
        ++ condList (tempGeB weather.overallMax 24)
             [packItem "Clothes" "Shorts" (EInt.fin 2) "checked"]
        ++ condList (!tempLeB weather.overallMin 18 && !tempGeB weather.overallMax 24)
             [packItem "Clothes" "Bottoms"
                (EInt.maxE (EInt.fin 1) maths.setsNeeded.ceilHalf) "checked"]
        ++ condList (weather.anyHumid && tempGeB weather.overallMax 26)
             [packItem "Clothes" "Singlet"
                (EInt.maxE (EInt.fin 1) (EInt.minE (EInt.fin 2) maths.setsNeeded)) "checked"]
        ++ [packItem "Clothes" "Sleepwear" (EInt.fin 1) "checked"]
        ++ addWeatherClothes weather.overallMin weather.overallMax weather.anyRain weather.anySun)
  ++ condList st.pokemonGoNeeded [packItem "Clothes" "Hat" (EInt.fin 1) "checked"]
  ++ condList st.pokemonGoNeeded
       ([packItem "Pokémon GO" "Power bank" (EInt.fin 1) "carryOn",
         packItem "Pokémon GO" "Pokémon GO Plus+" (EInt.fin 1) "carryOn",
         packItem "Pokémon GO" "Sunscreen" (EInt.fin 1) "checked",
         packItem "Pokémon GO" "Satchel" (EInt.fin 1) "checked"]
        ++ condList st.tradeList
             [packItem "Pokémon GO" "Printed trade list" (EInt.fin 1) "checked",
              packItem "Pokémon GO" "Lanyard" (EInt.fin 1) "checked"]
        ++ condList st.altAccount
             [packItem "Pokémon GO" "Alt phone" (EInt.fin 1) "carryOn",
              packItem "Pokémon GO" "Alt phone charging cable" (EInt.fin 1) "checked"]
        ++ condList st.eggWalker
             [packItem "Pokémon GO" "Egg walker" (EInt.fin 1) "carryOn",
              packItem "Pokémon GO" "iPhone (for egg walker)" (EInt.fin 2) "carryOn",
              packItem "Pokémon GO" "iPhone charging cable (for egg walker)" (EInt.fin 2) "checked"]
        ++ condList st.partnerPokemon
             [packItem "Pokémon GO" "Partner Pokémon plush" (EInt.fin 1) "checked"])

def windowOf (st : GenState) : String × String := computeOverallTripWindow st.segments

def mathsOf (st : GenState) : ClothesMath :=
  computeClothesMath (windowOf st).1 (windowOf st).2 st.washes st.includeSpareSet

def weatherOf (st : GenState) : WeatherSummary := computeWeatherSummary st.segments

def rawItems (st : GenState) : List Item := rawItemsCore st (mathsOf st) (weatherOf st)

/-- generatePackingList models App.jsx lines 141-283: the rule-engine
accumulator followed by the consolidation step. -/
def generatePackingList (st : GenState) : List Item := consolidate (rawItems st)

/-! ### The bag-override layer (App.jsx lines 753-759) -/

/-- applyOne is the per-item body of `applyOverrides`: the override map
is a finite map from identity keys to bag strings; a present truthy
value replaces the bag, everything else leaves the item unchanged
(`some ""` is falsy in JS, hence also a no-op). -/
def applyOne (overrides : String → Option String) (it : Item) : Item :=
  match overrides (stableKey it) with
  | some forced => if forced = "" then it else { it with bag := forced }
  | none => it

/-- applyOverrides models `applyOverrides` (App.jsx lines 753-759). -/
def applyOverrides (items : List Item) (overrides : String → Option String) : List Item :=
  items.map (applyOne overrides)

/-! ### Concrete example inputs used by counterexamples and witnesses -/

def exSegWeather : Segment := ⟨"2024-03-01", "2024-03-02", some 4, some 30, true, false, false⟩

/-- A state whose single segment yields the aggregated weather
overallMin = 4, overallMax = 30, anyRain = true, anySun = false. -/
def exStateWeather : GenState :=
  ⟨[exSegWeather], some 0, false, false, false, false, false, false, false, false, false, false⟩

/-- A state with isInternational = false but isJapanTrip = true (a
combination the UI prevents but the engine accepts). -/
def exStateJapan : GenState :=
  ⟨[], some 0, false, false, false, false, false, false, false, true, false, false⟩

def exItemHat : Item := ⟨"Clothes", "Hat", EInt.fin 1, "checked"⟩

def exOvHat : String → Option String :=
  fun k => if k = "Clothes__Hat" then some "carryOn" else none

def exOvNone : String → Option String := fun _ => none

/-! ### Order lemmas for the code-point lexicographic comparison -/

theorem charListLt_irrefl (l : List Char) : charListLt l l = false := by
  induction l with
  | nil => rfl
  | cons x xs ih => simp [charListLt, ih]

theorem charListLt_asymm : ∀ {a b : List Char},
    charListLt a b = true → charListLt b a = false
  | _, [], h => by simp [charListLt] at h
  | [], _ :: _, _ => rfl
  | x :: xs, y :: ys, h => by
    by_cases h1 : x < y
    · simp [charListLt, h1, lt_asymm h1]
    · by_cases h2 : y < x
      · simp [charListLt, h1, h2] at h
      · have hxy : ¬x < y := h1
        simp [charListLt, hxy, h2] at h
        simp [charListLt, h2, hxy, charListLt_asymm h]

theorem charListLt_trans : ∀ {a b c : List Char},
    charListLt a b = true → charListLt b c = true → charListLt a c = true
  | _, _, [], _, h2 => by simp [charListLt] at h2
  | _, [], _ :: _, h1, _ => by simp [charListLt] at h1
  | [], _ :: _, _ :: _, _, _ => rfl
  | x :: xs, y :: ys, z :: zs, h1, h2 => by
    by_cases hxy : x < y
    · by_cases hyz : y < z
      · simp [charListLt, lt_trans hxy hyz]
      · by_cases hzy : z < y
        · simp [charListLt, hyz, hzy] at h2
        · have : y = z := le_antisymm (le_of_not_lt hzy) (le_of_not_lt hyz)
          simp [charListLt, this ▸ hxy]
    · by_cases hyx : y < x
      · simp [charListLt, hxy, hyx] at h1
      · have hxyEq : x = y := le_antisymm (le_of_not_lt hyx) (le_of_not_lt hxy)
        subst hxyEq
        simp [charListLt, hxy] at h1
        by_cases hyz : x < z
        · simp [charListLt, hyz]
        · by_cases hzy : z < x
          · simp [charListLt, hyz, hzy] at h2
          · simp [charListLt, hyz, hzy] at h2 ⊢
            exact charListLt_trans h1 h2

theorem charListLt_connex : ∀ {a b : List Char},
    charListLt a b = false → charListLt b a = false → a = b
  | [], [], _, _ => rfl
  | [], _ :: _, h1, _ => by simp [charListLt] at h1
  | _ :: _, [], _, h2 => by simp [charListLt] at h2
  | x :: xs, y :: ys, h1, h2 => by
    by_cases hxy : x < y
    · simp [charListLt, hxy] at h1
    · by_cases hyx : y < x
      · simp [charListLt, hyx] at h2
      · have hEq : x = y := le_antisymm (le_of_not_lt hyx) (le_of_not_lt hxy)
        subst hEq
        simp [charListLt, hxy] at h1 h2
        rw [charListLt_connex h1 h2]

theorem str_eq_of_data_eq (a b : String) (h : a.data = b.data) : a = b := by
  cases a; cases b
  exact congrArg String.mk (by simpa using h)

theorem strLt_asymm {a b : String} (h : strLt a b = true) : strLt b a = false :=
  charListLt_asymm h

theorem strLt_trans {a b c : String} (h1 : strLt a b = true) (h2 : strLt b c = true) :
    strLt a c = true :=
  charListLt_trans h1 h2

theorem strLt_connex {a b : String} (h1 : strLt a b = false) (h2 : strLt b a = false) :
    a = b :=
  str_eq_of_data_eq a b (charListLt_connex h1 h2)

theorem strLt_irrefl (a : String) : strLt a a = false := charListLt_irrefl a.data

theorem strLe_iff {a b : String} : strLe a b = true ↔ strLt b a = false := by
  simp [strLe]

theorem strLe_refl (a : String) : strLe a a = true :=
  strLe_iff.mpr (strLt_irrefl a)

theorem strLe_trans {a b c : String} (h1 : strLe a b = true) (h2 : strLe b c = true) :
    strLe a c = true := by
  rw [strLe_iff] at h1 h2 ⊢
  by_contra hlt
  rw [Bool.not_eq_false] at hlt
  rcases hab : strLt a b with _ | _
  · have hEq : a = b := strLt_connex hab h1
    subst hEq
    simp [h2] at hlt
  · have : strLt c b = true := strLt_trans hlt hab
    simp [this] at h2

theorem strLe_total (a b : String) : strLe a b = true ∨ strLe b a = true := by
  rw [strLe_iff, strLe_iff]
  rcases h : strLt b a with _ | _
  · exact Or.inl rfl
  · exact Or.inr (strLt_asymm h)

theorem strLt_le {a b : String} (h : strLt a b = true) : strLe a b = true :=
  strLe_iff.mpr (strLt_asymm h)

/-! ### Fold lemmas for the trip window -/

theorem foldMin_mem (l : List String) : ∀ a : String, foldMin a l = a ∨ foldMin a l ∈ l := by
  induction l with
  | nil => intro a; exact Or.inl rfl
  | cons d l ih =>
    intro a
    show foldMin (if strLt d a then d else a) l = a ∨
      foldMin (if strLt d a then d else a) l ∈ d :: l
    rcases ih (if strLt d a then d else a) with h | h
    · rw [h]
      split
      · exact Or.inr (List.mem_cons_self _ _)
      · exact Or.inl rfl
    · exact Or.inr (List.mem_cons_of_mem _ h)

theorem foldMin_le (l : List String) : ∀ a : String,
    strLe (foldMin a l) a = true ∧ ∀ x ∈ l, strLe (foldMin a l) x = true := by
  induction l with
  | nil => intro a; exact ⟨strLe_refl a, by intro x hx; cases hx⟩
  | cons d l ih =>
    intro a
    have step : foldMin a (d :: l) = foldMin (if strLt d a then d else a) l := rfl
    obtain ⟨h1, h2⟩ := ih (if strLt d a then d else a)
    have hInit : strLe (foldMin (if strLt d a then d else a) l) a = true := by
      rcases hda : strLt d a with _ | _
      · simpa [hda] using h1
      · exact strLe_trans (by simpa [hda] using h1) (strLt_le hda)
    have hHead : strLe (foldMin (if strLt d a then d else a) l) d = true := by
      rcases hda : strLt d a with _ | _
      · exact strLe_trans (by simpa [hda] using h1) (strLe_iff.mpr hda)
      · simpa [hda] using h1
    refine ⟨step ▸ hInit, ?_⟩
    intro x hx
    rcases List.mem_cons.mp hx with rfl | hx
    · exact step ▸ hHead
    · exact step ▸ h2 x hx

theorem foldMax_mem (l : List String) : ∀ a : String, foldMax a l = a ∨ foldMax a l ∈ l := by
  induction l with
  | nil => intro a; exact Or.inl rfl
  | cons d l ih =>
    intro a
    show foldMax (if strLt a d then d else a) l = a ∨
      foldMax (if strLt a d then d else a) l ∈ d :: l
    rcases ih (if strLt a d then d else a) with h | h
    · rw [h]
      split
      · exact Or.inr (List.mem_cons_self _ _)
      · exact Or.inl rfl
    · exact Or.inr (List.mem_cons_of_mem _ h)

theorem foldMax_ge (l : List String) : ∀ a : String,
    strLe a (foldMax a l) = true ∧ ∀ x ∈ l, strLe x (foldMax a l) = true := by
  induction l with
  | nil => intro a; exact ⟨strLe_refl a, by intro x hx; cases hx⟩
  | cons d l ih =>
    intro a
    have step : foldMax a (d :: l) = foldMax (if strLt a d then d else a) l := rfl
    obtain ⟨h1, h2⟩ := ih (if strLt a d then d else a)
    have hInit : strLe a (foldMax (if strLt a d then d else a) l) = true := by
      rcases had : strLt a d with _ | _
      · simpa [had] using h1
      · exact strLe_trans (strLt_le had) (by simpa [had] using h1)
    have hHead : strLe d (foldMax (if strLt a d then d else a) l) = true := by
      rcases had : strLt a d with _ | _
      · exact strLe_trans (strLe_iff.mpr had) (by simpa [had] using h1)
      · simpa [had] using h1
    refine ⟨step ▸ hInit, ?_⟩
    intro x hx
    rcases List.mem_cons.mp hx with rfl | hx
    · exact step ▸ hHead
    · exact step ▸ h2 x hx

/-! ### Arithmetic lemmas for jsCeilDiv and EInt -/

theorem jsCeilDiv_le_iff {d c k : Int} (hc : 0 < c) : jsCeilDiv d c ≤ k ↔ d ≤ k * c := by
  unfold jsCeilDiv
  rw [if_pos hc, Int.fdiv_eq_ediv _ (le_of_lt hc), neg_le, Int.le_ediv_iff_mul_le hc,
    neg_mul, neg_le_neg_iff]

theorem le_jsCeilDiv_mul {d c : Int} (hc : 0 < c) : d ≤ jsCeilDiv d c * c :=
  (jsCeilDiv_le_iff hc).mp le_rfl

theorem jsCeilDiv_mono {c d1 d2 : Int} (hc : 0 < c) (h : d1 ≤ d2) :
    jsCeilDiv d1 c ≤ jsCeilDiv d2 c :=
  (jsCeilDiv_le_iff hc).mpr (le_trans h (le_jsCeilDiv_mul hc))

theorem jsCeilDiv_pos {d c : Int} (hd : 0 < d) (hc : 0 < c) : 1 ≤ jsCeilDiv d c := by
  by_contra h
  have hle : jsCeilDiv d c ≤ 0 := by omega
  have := (jsCeilDiv_le_iff hc).mp hle
  simp at this
  omega

theorem jsCeilDiv_anti {d c1 c2 : Int} (hd : 0 < d) (h1 : 0 < c1) (h12 : c1 ≤ c2) :
    jsCeilDiv d c2 ≤ jsCeilDiv d c1 := by
  have h2 : 0 < c2 := lt_of_lt_of_le h1 h12
  refine (jsCeilDiv_le_iff h2).mpr ?_
  have hle := le_jsCeilDiv_mul (d := d) h1
  have hpos : 1 ≤ jsCeilDiv d c1 := jsCeilDiv_pos hd h1
  exact hle.trans (mul_le_mul_of_nonneg_left h12 (by omega))

theorem jsCeilDiv_one (d : Int) : jsCeilDiv d 1 = d := by
  simp [jsCeilDiv, Int.fdiv_one]

theorem EInt.le_def (a b : EInt) : (a ≤ b) = (EInt.leB a b = true) := rfl

theorem EInt.fin_le_fin {a b : Int} : (EInt.fin a ≤ EInt.fin b) ↔ a ≤ b := by
  rw [EInt.le_def]
  simp [EInt.leB]

/-! ### Clothing-quantity calculator: evaluation and claims C2, C6 -/

theorem setsNeeded_eval (D W : Int) (S : Bool) (hW : 0 ≤ W) :
    (clothesMathOfDays D (some W) S).setsNeeded =
      EInt.fin ((if 0 < D then jsCeilDiv D (W + 1) else 0) + (if S then 1 else 0)) := by
  have hc : ¬ (W + 1 = 0) := by omega
  unfold clothesMathOfDays
  by_cases hD : 0 < D <;> cases S <;> simp [hc, hD, EInt.add]

/-- Claim C2, counterexample: a negative numeric washes input is NOT
treated as 0 by `computeClothesMath`: with washes = -2 on a three-day
trip, `washCount = -2`, the cycle count is -1 (negative), and
`baseSets = setsNeeded = -3`.  This refutes the claim that negative
wash inputs are clamped to zero and that the cycle count is never
negative. -/
theorem computeClothesMath_negative_washes_counterexample :
    (computeClothesMath "2024-03-01" "2024-03-03" (some (-2)) false).washCount = -2 ∧
    (computeClothesMath "2024-03-01" "2024-03-03" (some (-2)) false).cycles = -1 ∧
    (computeClothesMath "2024-03-01" "2024-03-03" (some (-2)) false).cycles < 0 ∧
    (computeClothesMath "2024-03-01" "2024-03-03" (some (-2)) false).baseSets =
      EInt.fin (-3) ∧
    (computeClothesMath "2024-03-01" "2024-03-03" (some (-2)) false).setsNeeded =
      EInt.fin (-3) := by decide

/-- Claim C2 (amended): a NON-NUMERIC washes input is treated as wash
count 0, so the cycle count is exactly 1 (hence never negative), and
`baseSets` and `setsNeeded` are non-negative; negative numeric washes
are passed through unclamped (see the counterexample). -/
theorem clothesMathOfDays_none (D : Int) (spare : Bool) :
    clothesMathOfDays D none spare =
      ⟨D, 0, 1, EInt.fin (if 0 < D then D else 0),
        EInt.fin ((if 0 < D then D else 0) + (if spare then 1 else 0))⟩ := by
  unfold clothesMathOfDays
  simp only [zero_add, one_ne_zero, if_false, jsCeilDiv_one]
  cases spare <;> split <;> simp [EInt.add]

theorem computeClothesMath_nonNumeric_washes (startISO endISO : String) (spare : Bool) :
    (computeClothesMath startISO endISO none spare).washCount = 0 ∧
    (computeClothesMath startISO endISO none spare).cycles = 1 ∧
    EInt.fin 0 ≤ (computeClothesMath startISO endISO none spare).baseSets ∧
    EInt.fin 0 ≤ (computeClothesMath startISO endISO none spare).setsNeeded := by
  rw [show computeClothesMath startISO endISO none spare =
      clothesMathOfDays (tripDaysInclusive startISO endISO) none spare from rfl,
    clothesMathOfDays_none]
  refine ⟨rfl, rfl, ?_, ?_⟩
  · exact EInt.fin_le_fin.mpr (by split <;> omega)
  · exact EInt.fin_le_fin.mpr (by split <;> split <;> omega)

/-- Claim C6: for every fixed spare-set flag and non-negative integer
wash count, `setsNeeded` is monotonically non-decreasing in the trip
day count and monotonically non-increasing in the wash count. -/
theorem setsNeeded_monotone (S : Bool) (W W1 W2 D D1 D2 : Int)
    (hW : 0 ≤ W) (hD : D1 ≤ D2) (hW1 : 0 ≤ W1) (hW12 : W1 ≤ W2) :
    (clothesMathOfDays D1 (some W) S).setsNeeded ≤
      (clothesMathOfDays D2 (some W) S).setsNeeded ∧
    (clothesMathOfDays D (some W2) S).setsNeeded ≤
      (clothesMathOfDays D (some W1) S).setsNeeded := by
  have hW2 : 0 ≤ W2 := le_trans hW1 hW12
  rw [setsNeeded_eval D1 W S hW, setsNeeded_eval D2 W S hW,
    setsNeeded_eval D W2 S hW2, setsNeeded_eval D W1 S hW1]
  constructor
  · refine EInt.fin_le_fin.mpr (add_le_add_right ?_ _)
    by_cases h1 : 0 < D1
    · rw [if_pos h1, if_pos (by omega)]
      exact jsCeilDiv_mono (by omega) hD
    · rw [if_neg h1]
      by_cases h2 : 0 < D2
      · rw [if_pos h2]
        have := jsCeilDiv_pos h2 (show (0:Int) < W + 1 by omega)
        omega
      · rw [if_neg h2]
  · refine EInt.fin_le_fin.mpr (add_le_add_right ?_ _)
    by_cases hd : 0 < D
    · rw [if_pos hd, if_pos hd]
      exact jsCeilDiv_anti hd (by omega) (by omega)
    · rw [if_neg hd, if_neg hd]

/-- Witness for C6 at S = true, W = 1, D1 = 3 ≤ D2 = 5, and D = 4 with
W1 = 1 ≤ W2 = 2. -/
theorem setsNeeded_monotone_witness :
    (0:Int) ≤ 1 ∧ (3:Int) ≤ 5 ∧ (1:Int) ≤ 2 ∧
    ((clothesMathOfDays 3 (some 1) true).setsNeeded ≤
      (clothesMathOfDays 5 (some 1) true).setsNeeded ∧
     (clothesMathOfDays 4 (some 2) true).setsNeeded ≤
      (clothesMathOfDays 4 (some 1) true).setsNeeded) :=
  ⟨by decide, by decide, by decide,
   setsNeeded_monotone true 1 1 2 4 3 5 (by decide) (by decide) (by decide) (by decide)⟩

/-- Claim C4: for valid ISO dates, `tripDaysInclusive` equals
`floor((end - start) / 86400000) + 1` when that value is non-negative
and 0 otherwise; a same-day range yields 1 and a reversed range 0. -/
theorem tripDaysInclusive_spec (startISO endISO : String) (ds de : Int)
    (hs : parseISODateToUTC startISO = some ds)
    (he : parseISODateToUTC endISO = some de) :
    tripDaysInclusive startISO endISO =
      (if 0 ≤ (de * 86400000 - ds * 86400000).fdiv 86400000
       then (de * 86400000 - ds * 86400000).fdiv 86400000 + 1 else 0) ∧
    tripDaysInclusive startISO endISO = (if ds ≤ de then de - ds + 1 else 0) ∧
    (ds = de → tripDaysInclusive startISO endISO = 1) ∧
    (de < ds → tripDaysInclusive startISO endISO = 0) := by
  have key : (de * 86400000 - ds * 86400000).fdiv 86400000 = de - ds := by
    rw [← sub_mul, Int.mul_fdiv_cancel _ (by norm_num)]
  have base : tripDaysInclusive startISO endISO =
      (if 0 ≤ (de * 86400000 - ds * 86400000).fdiv 86400000
       then (de * 86400000 - ds * 86400000).fdiv 86400000 + 1 else 0) := by
    unfold tripDaysInclusive
    rw [hs, he]
  have main : tripDaysInclusive startISO endISO = (if ds ≤ de then de - ds + 1 else 0) := by
    rw [base, key]
    by_cases h : ds ≤ de
    · rw [if_pos (by omega), if_pos h]
    · rw [if_neg (by omega), if_neg h]
  refine ⟨base, main, ?_, ?_⟩
  · intro h
    rw [main, if_pos (le_of_eq h)]
    omega
  · intro h
    rw [main, if_neg (by omega)]

/-- Witness for C4 at the concrete dates 2024-03-04 and 2024-03-06
(epoch days 19786 and 19788). -/
theorem tripDaysInclusive_spec_witness :
    parseISODateToUTC "2024-03-04" = some 19786 ∧
    parseISODateToUTC "2024-03-06" = some 19788 ∧
    (tripDaysInclusive "2024-03-04" "2024-03-06" =
      (if 0 ≤ ((19788:Int) * 86400000 - 19786 * 86400000).fdiv 86400000
       then ((19788:Int) * 86400000 - 19786 * 86400000).fdiv 86400000 + 1 else 0) ∧
     tripDaysInclusive "2024-03-04" "2024-03-06" =
      (if (19786:Int) ≤ 19788 then 19788 - 19786 + 1 else 0) ∧
     ((19786:Int) = 19788 → tripDaysInclusive "2024-03-04" "2024-03-06" = 1) ∧
     ((19788:Int) < 19786 → tripDaysInclusive "2024-03-04" "2024-03-06" = 0)) :=
  ⟨by decide, by decide,
   tripDaysInclusive_spec "2024-03-04" "2024-03-06" 19786 19788 (by decide) (by decide)⟩

/-! ### The overall trip window: claim C3 -/

theorem mem_startDatesOf_ne (segments : List Segment) {x : String}
    (hx : x ∈ startDatesOf segments) : x ≠ "" := by
  simp only [startDatesOf, List.mem_filter, decide_eq_true_eq] at hx
  exact hx.2

theorem mem_endDatesOf_ne (segments : List Segment) {x : String}
    (hx : x ∈ endDatesOf segments) : x ≠ "" := by
  simp only [endDatesOf, List.mem_filter, decide_eq_true_eq] at hx
  exact hx.2

/-- Claim C3 (amended): the window is the pair of empty strings exactly
when no segment has a startDate set OR no segment has an endDate set
(not only when no segment has any date set); when both a start and an
end date exist, the window is the lexicographic minimum of the set
start dates and the lexicographic maximum of the set end dates. -/
theorem overallWindow_spec (segments : List Segment) :
    (computeOverallTripWindow segments = ("", "") ↔
      (startDatesOf segments = [] ∨ endDatesOf segments = [])) ∧
    (startDatesOf segments ≠ [] → endDatesOf segments ≠ [] →
      ((computeOverallTripWindow segments).1 ∈ startDatesOf segments ∧
       (∀ s ∈ startDatesOf segments,
          strLe (computeOverallTripWindow segments).1 s = true) ∧
       (computeOverallTripWindow segments).2 ∈ endDatesOf segments ∧
       (∀ e ∈ endDatesOf segments,
          strLe e (computeOverallTripWindow segments).2 = true))) := by
  rcases hs : startDatesOf segments with _ | ⟨s0, sRest⟩
  · constructor
    · constructor
      · intro _; exact Or.inl rfl
      · intro _
        unfold computeOverallTripWindow
        rw [hs]
    · intro h; exact absurd rfl h
  · rcases he : endDatesOf segments with _ | ⟨e0, eRest⟩
    · constructor
      · constructor
        · intro _; exact Or.inr rfl
        · intro _
          unfold computeOverallTripWindow
          rw [hs, he]
      · intro _ h; exact absurd rfl h
    · have hwin : computeOverallTripWindow segments =
          (foldMin s0 (s0 :: sRest), foldMax e0 (e0 :: eRest)) := by
        unfold computeOverallTripWindow
        rw [hs, he]
      have hminMem : foldMin s0 (s0 :: sRest) ∈ s0 :: sRest := by
        rcases foldMin_mem (s0 :: sRest) s0 with h | h
        · rw [h]; exact List.mem_cons_self _ _
        · exact h
      have hminLe := (foldMin_le (s0 :: sRest) s0).2
      have hmaxMem : foldMax e0 (e0 :: eRest) ∈ e0 :: eRest := by
        rcases foldMax_mem (e0 :: eRest) e0 with h | h
        · rw [h]; exact List.mem_cons_self _ _
        · exact h
      have hmaxGe := (foldMax_ge (e0 :: eRest) e0).2
      have hne : foldMin s0 (s0 :: sRest) ≠ "" :=
        mem_startDatesOf_ne segments (hs ▸ hminMem)
      constructor
      · rw [hwin]
        constructor
        · intro h
          exact absurd (congrArg Prod.fst h) hne
        · rintro (h | h)
          · exact absurd h (List.cons_ne_nil _ _)
          · exact absurd h (List.cons_ne_nil _ _)
      · intro _ _
        rw [hwin]
        exact ⟨hminMem, fun s hsm => hminLe s hsm, hmaxMem, fun e hem => hmaxGe e hem⟩

/-- Claim C3, counterexample to the claim as stated: a single segment
with a startDate set but no endDate has "some date set", yet
`computeOverallTripWindow` returns the pair of empty strings. -/
theorem overallWindow_counterexample :
    (∃ s ∈ [(⟨"2024-01-01", "", none, none, false, false, false⟩ : Segment)],
      s.startDate ≠ "" ∨ s.endDate ≠ "") ∧
    computeOverallTripWindow
      [(⟨"2024-01-01", "", none, none, false, false, false⟩ : Segment)] = ("", "") := by
  decide

/-- Witness for the amended C3 on two dated segments. -/
theorem overallWindow_spec_witness :
    startDatesOf [(⟨"2024-03-02", "2024-03-05", none, none, false, false, false⟩ : Segment),
      (⟨"2024-03-01", "2024-03-04", none, none, false, false, false⟩ : Segment)] ≠ [] ∧
    endDatesOf [(⟨"2024-03-02", "2024-03-05", none, none, false, false, false⟩ : Segment),
      (⟨"2024-03-01", "2024-03-04", none, none, false, false, false⟩ : Segment)] ≠ [] ∧
    ((computeOverallTripWindow
        [(⟨"2024-03-02", "2024-03-05", none, none, false, false, false⟩ : Segment),
         (⟨"2024-03-01", "2024-03-04", none, none, false, false, false⟩ : Segment)]).1 ∈
      startDatesOf [(⟨"2024-03-02", "2024-03-05", none, none, false, false, false⟩ : Segment),
        (⟨"2024-03-01", "2024-03-04", none, none, false, false, false⟩ : Segment)] ∧
     (∀ s ∈ startDatesOf
        [(⟨"2024-03-02", "2024-03-05", none, none, false, false, false⟩ : Segment),
         (⟨"2024-03-01", "2024-03-04", none, none, false, false, false⟩ : Segment)],
        strLe (computeOverallTripWindow
          [(⟨"2024-03-02", "2024-03-05", none, none, false, false, false⟩ : Segment),
           (⟨"2024-03-01", "2024-03-04", none, none, false, false, false⟩ : Segment)]).1 s =
          true) ∧
     (computeOverallTripWindow
        [(⟨"2024-03-02", "2024-03-05", none, none, false, false, false⟩ : Segment),
         (⟨"2024-03-01", "2024-03-04", none, none, false, false, false⟩ : Segment)]).2 ∈
      endDatesOf [(⟨"2024-03-02", "2024-03-05", none, none, false, false, false⟩ : Segment),
        (⟨"2024-03-01", "2024-03-04", none, none, false, false, false⟩ : Segment)] ∧
     (∀ e ∈ endDatesOf
        [(⟨"2024-03-02", "2024-03-05", none, none, false, false, false⟩ : Segment),
         (⟨"2024-03-01", "2024-03-04", none, none, false, false, false⟩ : Segment)],
        strLe e (computeOverallTripWindow
          [(⟨"2024-03-02", "2024-03-05", none, none, false, false, false⟩ : Segment),
           (⟨"2024-03-01", "2024-03-04", none, none, false, false, false⟩ : Segment)]).2 =
          true)) :=
  ⟨by decide, by decide,
   (overallWindow_spec
     [(⟨"2024-03-02", "2024-03-05", none, none, false, false, false⟩ : Segment),
      (⟨"2024-03-01", "2024-03-04", none, none, false, false, false⟩ : Segment)]).2
     (by decide) (by decide)⟩

/-! ### Membership machinery for the consolidation pipeline -/

theorem existsMem_nil {α : Type} {p : α → Prop} : (∃ x ∈ ([] : List α), p x) ↔ False := by
  simp

theorem existsMem_append {α : Type} {p : α → Prop} {l1 l2 : List α} :
    (∃ x ∈ l1 ++ l2, p x) ↔ (∃ x ∈ l1, p x) ∨ (∃ x ∈ l2, p x) := by
  constructor
  · rintro ⟨x, hx, hp⟩
    rcases List.mem_append.mp hx with h | h
    · exact Or.inl ⟨x, h, hp⟩
    · exact Or.inr ⟨x, h, hp⟩
  · rintro (⟨x, hx, hp⟩ | ⟨x, hx, hp⟩)
    · exact ⟨x, List.mem_append_left _ hx, hp⟩
    · exact ⟨x, List.mem_append_right _ hx, hp⟩

theorem existsMem_condList {b : Bool} {l : List Item} {p : Item → Prop} :
    (∃ x ∈ condList b l, p x) ↔ b = true ∧ ∃ x ∈ l, p x := by
  cases b <;> simp [condList]

theorem forallMem_condList {b : Bool} {l : List Item} {p : Item → Prop} :
    (∀ x ∈ condList b l, p x) ↔ (b = true → ∀ x ∈ l, p x) := by
  cases b <;> simp [condList]

theorem mem_condList {b : Bool} {l : List Item} {x : Item} :
    x ∈ condList b l ↔ b = true ∧ x ∈ l := by
  cases b <;> simp [condList]

theorem mergeKey_packItem (c n : String) (q : EInt) (b : String) :
    mergeKey (packItem c n q b) = (b, c, n) := rfl

theorem quantity_packItem (c n : String) (q : EInt) (b : String) :
    (packItem c n q b).quantity = q := rfl

theorem mergeKey_bump (it e : Item) : mergeKey (bump it e) = mergeKey e := by
  unfold bump
  split <;> rfl

theorem existsMem_insertOne (acc : List Item) (it : Item)
    (p : String × String × String → Prop) :
    (∃ e ∈ insertOne acc it, p (mergeKey e)) ↔
      (∃ e ∈ acc, p (mergeKey e)) ∨ p (mergeKey it) := by
  unfold insertOne
  by_cases h : acc.any (fun e => decide (mergeKey e = mergeKey it)) = true
  · rw [if_pos h]
    have hex : ∃ e ∈ acc, mergeKey e = mergeKey it := by
      rcases List.any_eq_true.mp h with ⟨e, he, hke⟩
      exact ⟨e, he, of_decide_eq_true hke⟩
    constructor
    · rintro ⟨e, he, hp⟩
      rcases List.mem_map.mp he with ⟨e0, he0, rfl⟩
      rw [mergeKey_bump] at hp
      exact Or.inl ⟨e0, he0, hp⟩
    · rintro (⟨e, he, hp⟩ | hp)
      · exact ⟨bump it e, List.mem_map_of_mem _ he, by rwa [mergeKey_bump]⟩
      · rcases hex with ⟨e, he, hke⟩
        refine ⟨bump it e, List.mem_map_of_mem _ he, ?_⟩
        rw [mergeKey_bump, hke]
        exact hp
  · rw [if_neg h]
    constructor
    · rintro ⟨e, he, hp⟩
      rcases List.mem_append.mp he with h1 | h1
      · exact Or.inl ⟨e, h1, hp⟩
      · rw [List.mem_singleton.mp h1] at hp
        exact Or.inr hp
    · rintro (⟨e, he, hp⟩ | hp)
      · exact ⟨e, List.mem_append_left _ he, hp⟩
      · exact ⟨it, List.mem_append_right _ (List.mem_singleton_self it), hp⟩

theorem existsMem_uniqFold (p : String × String × String → Prop) :
    ∀ (l acc : List Item),
      (∃ e ∈ l.foldl insertOne acc, p (mergeKey e)) ↔
        ((∃ e ∈ acc, p (mergeKey e)) ∨ ∃ e ∈ l, p (mergeKey e)) := by
  intro l
  induction l with
  | nil => intro acc; simp
  | cons a l ih =>
    intro acc
    rw [List.foldl_cons, ih (insertOne acc a), existsMem_insertOne,
      List.exists_mem_cons_iff]
    exact or_assoc

theorem existsMem_uniq (l : List Item) (p : String × String × String → Prop) :
    (∃ e ∈ uniqItemsByBag l, p (mergeKey e)) ↔ ∃ e ∈ l, p (mergeKey e) := by
  rw [uniqItemsByBag, existsMem_uniqFold p l []]
  simp

theorem sortItems_perm (l : List Item) : (sortItems l).Perm l :=
  List.perm_insertionSort _ _

theorem existsMem_generate (st : GenState) (p : String × String × String → Prop) :
    (∃ it ∈ generatePackingList st, p (mergeKey it)) ↔
      ∃ it ∈ rawItems st, it.quantity.isPos = true ∧ p (mergeKey it) := by
  unfold generatePackingList consolidate
  constructor
  · rintro ⟨it, hit, hp⟩
    have hit2 := (sortItems_perm _).mem_iff.mp hit
    rcases (existsMem_uniq _ p).mp ⟨it, hit2, hp⟩ with ⟨e, he, hpe⟩
    rcases List.mem_filter.mp he with ⟨hmem, hq⟩
    exact ⟨e, hmem, hq, hpe⟩
  · rintro ⟨it, hit, hq, hp⟩
    rcases (existsMem_uniq ((rawItems st).filter (fun x => x.quantity.isPos)) p).mpr
        ⟨it, by exact List.mem_filter_of_mem hit hq, hp⟩ with ⟨e, he, hpe⟩
    exact ⟨e, (sortItems_perm _).mem_iff.mpr he, hpe⟩

theorem existsName_generate (st : GenState) (N : String) :
    (∃ it ∈ generatePackingList st, it.name = N) ↔
      ∃ it ∈ rawItems st, it.quantity.isPos = true ∧ it.name = N := by
  have h := existsMem_generate st (fun k => k.2.2 = N)
  constructor
  · rintro ⟨it, hm, hn⟩
    rcases h.mp ⟨it, hm, hn⟩ with ⟨j, hj, hq, hn2⟩
    exact ⟨j, hj, hq, hn2⟩
  · rintro ⟨it, hm, hq, hn⟩
    rcases h.mpr ⟨it, hm, hq, hn⟩ with ⟨j, hj, hn2⟩
    exact ⟨j, hj, hn2⟩

theorem all_cat_clothes {l : List Item}
    (h : l.all (fun x => decide (x.category = "Clothes")) = true) :
    ∀ it ∈ l, it.category = "Clothes" :=
  fun it hit => of_decide_eq_true (List.all_eq_true.mp h it hit)

theorem addWeatherClothes_category (minT maxT : Option Int) (r s : Bool) :
    ∀ it ∈ addWeatherClothes minT maxT r s, it.category = "Clothes" := by
  intro it hit
  unfold addWeatherClothes at hit
  rcases minT with _ | m <;> rcases maxT with _ | t <;> cases r <;> cases s <;>
    simp only [condList, if_true, if_false, List.append_nil, List.nil_append] at hit <;>
    (try split_ifs at hit) <;>
    exact all_cat_clothes (by decide) it hit

/-! ### Claim C1: the Eki stamp book rule -/

theorem existsMem_addWeatherClothes_eki (minT maxT : Option Int) (r s : Bool) :
    (∃ it ∈ addWeatherClothes minT maxT r s,
      it.quantity.isPos = true ∧ mergeKey it = ("carryOn", "Misc", "Eki stamp book")) ↔
      False := by
  constructor
  · rintro ⟨it, hit, _, hk⟩
    have hcat := addWeatherClothes_category minT maxT r s it hit
    have hmisc : it.category = "Misc" := by
      have := congrArg (fun k => k.2.1) hk
      simpa [mergeKey] using this
    rw [hcat] at hmisc
    exact absurd hmisc (by decide)
  · exact False.elim

/-- Claim C1 (amended): the rule engine emits the Eki stamp book
(carry-on, Misc) item iff `isJapanTrip` is true, regardless of
`isInternational`; the engine itself does not consult the parent flag
(the parent-flag guard lives in the UI layer, which resets
`isJapanTrip` whenever `isInternational` is false). -/
theorem eki_iff_isJapanTrip (st : GenState) :
    (∃ it ∈ generatePackingList st,
        mergeKey it = ("carryOn", "Misc", "Eki stamp book")) ↔
      st.isJapanTrip = true := by
  rw [existsMem_generate st (fun k => k = ("carryOn", "Misc", "Eki stamp book"))]
  unfold rawItems rawItemsCore
  simp [existsMem_append, existsMem_condList, List.exists_mem_cons_iff, existsMem_nil,
    mem_condList, List.mem_append, List.mem_cons, or_and_right, and_or_left, and_assoc,
    exists_or, exists_eq_left, mergeKey_packItem, quantity_packItem, EInt.isPos,
    Prod.mk.injEq, existsMem_addWeatherClothes_eki]
  intro _ x hx _ hkey
  have hcat := addWeatherClothes_category (weatherOf st).overallMin (weatherOf st).overallMax
    (weatherOf st).anyRain (weatherOf st).anySun x hx
  have hmisc : x.category = "Misc" := by
    simpa [mergeKey] using congrArg (fun k => k.2.1) hkey
  rw [hcat] at hmisc
  exact absurd hmisc (by decide)

/-- Claim C1, counterexample to the claim as stated: with
isInternational = false and isJapanTrip = true the generated list does
contain the Eki stamp book. -/
theorem eki_counterexample :
    exStateJapan.isInternational = false ∧ exStateJapan.isJapanTrip = true ∧
    ∃ it ∈ generatePackingList exStateJapan,
      mergeKey it = ("carryOn", "Misc", "Eki stamp book") := by decide

/-! ### Claim C5: the weather example -/

theorem name_packItem (c n : String) (q : EInt) (b : String) :
    (packItem c n q b).name = n := rfl

/-- Claim C5: for every input whose trip day count is positive and whose
aggregated weather is overallMin = 4, overallMax = 30, anyRain = true,
anySun = false, the generated list includes the seven listed cold/rain
items and does not include Sunglasses. -/
theorem weatherExample_items (st : GenState) (hu : Bool)
    (hw : weatherOf st = ⟨some 4, some 30, true, false, hu⟩)
    (hd : 0 < (mathsOf st).days) :
    (∃ it ∈ generatePackingList st, it.name = "Warm jacket") ∧
    (∃ it ∈ generatePackingList st, it.name = "Warm layer (jumper or hoodie)") ∧
    (∃ it ∈ generatePackingList st, it.name = "Beanie") ∧
    (∃ it ∈ generatePackingList st, it.name = "Scarf") ∧
    (∃ it ∈ generatePackingList st, it.name = "Gloves") ∧
    (∃ it ∈ generatePackingList st, it.name = "Umbrella or rain jacket") ∧
    (∃ it ∈ generatePackingList st, it.name = "Hat (optional)") ∧
    ¬ (∃ it ∈ generatePackingList st, it.name = "Sunglasses") := by
  have present : ∀ N : String, packItem "Clothes" N (EInt.fin 1) "checked" ∈ rawItems st →
      ∃ it ∈ generatePackingList st, it.name = N := fun N hmem =>
    (existsName_generate st N).mpr
      ⟨packItem "Clothes" N (EInt.fin 1) "checked", hmem, rfl, rfl⟩
  refine ⟨present _ ?_, present _ ?_, present _ ?_, present _ ?_, present _ ?_,
    present _ ?_, present _ ?_, ?_⟩ <;>
    [skip; skip; skip; skip; skip; skip; skip; rw [existsName_generate]] <;>
    unfold rawItems rawItemsCore <;>
    simp [hw, hd, mem_condList, List.mem_append, List.mem_cons, addWeatherClothes,
      condList, packItem, tempLeB, tempGeB, EInt.isPos, existsMem_append,
      existsMem_condList, List.exists_mem_cons_iff, existsMem_nil, or_and_right,
      and_or_left, and_assoc, exists_or, exists_eq_left]

/-- Witness for C5 at a concrete one-segment state realising the
required weather aggregate and a 2-day trip. -/
theorem weatherExample_items_witness :
    weatherOf exStateWeather = ⟨some 4, some 30, true, false, false⟩ ∧
    0 < (mathsOf exStateWeather).days ∧
    ((∃ it ∈ generatePackingList exStateWeather, it.name = "Warm jacket") ∧
     (∃ it ∈ generatePackingList exStateWeather, it.name = "Warm layer (jumper or hoodie)") ∧
     (∃ it ∈ generatePackingList exStateWeather, it.name = "Beanie") ∧
     (∃ it ∈ generatePackingList exStateWeather, it.name = "Scarf") ∧
     (∃ it ∈ generatePackingList exStateWeather, it.name = "Gloves") ∧
     (∃ it ∈ generatePackingList exStateWeather, it.name = "Umbrella or rain jacket") ∧
     (∃ it ∈ generatePackingList exStateWeather, it.name = "Hat (optional)") ∧
     ¬ (∃ it ∈ generatePackingList exStateWeather, it.name = "Sunglasses")) :=
  ⟨by decide, by decide, weatherExample_items exStateWeather false (by decide) (by decide)⟩

/-! ### The sort order: totality and transitivity -/

theorem itemLE_total (a b : Item) : itemLE a b = true ∨ itemLE b a = true := by
  unfold itemLE
  by_cases h1 : a.bag = b.bag
  · rw [if_pos h1, if_pos h1.symm]
    by_cases h2 : a.category = b.category
    · rw [if_pos h2, if_pos h2.symm]
      exact strLe_total _ _
    · rw [if_neg h2, if_neg (fun hh => h2 hh.symm)]
      rcases hlt : strLt a.category b.category with _ | _
      · rcases hlt2 : strLt b.category a.category with _ | _
        · exact absurd (strLt_connex hlt2 hlt) (fun hh => h2 hh.symm)
        · exact Or.inr rfl
      · exact Or.inl rfl
  · rw [if_neg h1, if_neg (fun hh => h1 hh.symm)]
    rcases hlt : strLt a.bag b.bag with _ | _
    · rcases hlt2 : strLt b.bag a.bag with _ | _
      · exact absurd (strLt_connex hlt2 hlt) (fun hh => h1 hh.symm)
      · exact Or.inr rfl
    · exact Or.inl rfl

theorem itemLE_trans (a b c : Item) (h1 : itemLE a b = true) (h2 : itemLE b c = true) :
    itemLE a c = true := by
  unfold itemLE at h1 h2 ⊢
  by_cases hab : a.bag = b.bag <;> by_cases hbc : b.bag = c.bag
  · rw [if_pos hab] at h1
    rw [if_pos hbc] at h2
    rw [if_pos (hab.trans hbc)]
    by_cases h3 : a.category = b.category <;> by_cases h4 : b.category = c.category
    · rw [if_pos h3] at h1
      rw [if_pos h4] at h2
      rw [if_pos (h3.trans h4)]
      exact strLe_trans h1 h2
    · rw [if_pos h3] at h1
      rw [if_neg h4] at h2
      rw [if_neg (fun hh => h4 (h3.symm.trans hh))]
      rw [h3]
      exact h2
    · rw [if_neg h3] at h1
      rw [if_pos h4] at h2
      rw [if_neg (fun hh => h3 (hh.trans h4.symm))]
      rw [← h4]
      exact h1
    · rw [if_neg h3] at h1
      rw [if_neg h4] at h2
      have hne : ¬ a.category = c.category := by
        intro hh
        have hasym := strLt_asymm h2
        rw [← hh] at hasym
        rw [h1] at hasym
        simp at hasym
      rw [if_neg hne]
      exact strLt_trans h1 h2
  · rw [if_pos hab] at h1
    rw [if_neg hbc] at h2
    rw [if_neg (fun hh => hbc (hab.symm.trans hh))]
    rw [hab]
    exact h2
  · rw [if_neg hab] at h1
    rw [if_pos hbc] at h2
    rw [if_neg (fun hh => hab (hh.trans hbc.symm))]
    rw [← hbc]
    exact h1
  · rw [if_neg hab] at h1
    rw [if_neg hbc] at h2
    have hne : ¬ a.bag = c.bag := by
      intro hh
      have hasym := strLt_asymm h2
      rw [← hh] at hasym
      rw [h1] at hasym
      simp at hasym
    rw [if_neg hne]
    exact strLt_trans h1 h2

instance : IsTotal Item itemRel := ⟨itemLE_total⟩

instance : IsTrans Item itemRel := ⟨itemLE_trans⟩

/-! ### Claim C7: consolidation is idempotent -/

theorem orOne_of_isPos {q : EInt} (h : q.isPos = true) : orOne q = q := by
  unfold orOne
  split
  · rename_i heq
    rw [heq] at h
    simp [EInt.isPos] at h
  · rfl

theorem isPos_add {a b : EInt} (ha : a.isPos = true) (hb : b.isPos = true) :
    (a.add b).isPos = true := by
  rcases a with n | _ <;> rcases b with m | _ <;>
    simp [EInt.add, EInt.isPos] at * <;> omega

theorem insertOne_allPos {acc : List Item} {it : Item}
    (hacc : ∀ e ∈ acc, e.quantity.isPos = true) (hit : it.quantity.isPos = true) :
    ∀ e ∈ insertOne acc it, e.quantity.isPos = true := by
  unfold insertOne
  split
  · intro e he
    rcases List.mem_map.mp he with ⟨e0, he0, rfl⟩
    unfold bump
    split
    · exact isPos_add (by rw [orOne_of_isPos (hacc e0 he0)]; exact hacc e0 he0)
        (by rw [orOne_of_isPos hit]; exact hit)
    · exact hacc e0 he0
  · intro e he
    rcases List.mem_append.mp he with h | h
    · exact hacc e h
    · rw [List.mem_singleton.mp h]
      exact hit

theorem uniqFold_allPos :
    ∀ (l acc : List Item), (∀ e ∈ acc, e.quantity.isPos = true) →
      (∀ e ∈ l, e.quantity.isPos = true) →
      ∀ e ∈ l.foldl insertOne acc, e.quantity.isPos = true := by
  intro l
  induction l with
  | nil => intro acc hacc _; exact hacc
  | cons a l ih =>
    intro acc hacc hl
    rw [List.foldl_cons]
    exact ih (insertOne acc a)
      (insertOne_allPos hacc (hl a (List.mem_cons_self a l)))
      (fun e he => hl e (List.mem_cons_of_mem a he))

theorem uniq_allPos {l : List Item} (h : ∀ e ∈ l, e.quantity.isPos = true) :
    ∀ e ∈ uniqItemsByBag l, e.quantity.isPos = true :=
  uniqFold_allPos l [] (by intro e he; cases he) h

theorem insertOne_pairwise {acc : List Item} {it : Item}
    (h : acc.Pairwise (fun a b => mergeKey a ≠ mergeKey b)) :
    (insertOne acc it).Pairwise (fun a b => mergeKey a ≠ mergeKey b) := by
  unfold insertOne
  by_cases hc : acc.any (fun e => decide (mergeKey e = mergeKey it)) = true
  · rw [if_pos hc, List.pairwise_map]
    exact h.imp (fun hab => by rwa [mergeKey_bump, mergeKey_bump])
  · rw [if_neg hc, List.pairwise_append]
    refine ⟨h, List.pairwise_singleton _ _, ?_⟩
    intro a ha b hb
    rw [List.mem_singleton.mp hb]
    intro hk
    exact hc (List.any_eq_true.mpr ⟨a, ha, decide_eq_true hk⟩)

theorem uniqFold_pairwise :
    ∀ (l acc : List Item), acc.Pairwise (fun a b => mergeKey a ≠ mergeKey b) →
      (l.foldl insertOne acc).Pairwise (fun a b => mergeKey a ≠ mergeKey b) := by
  intro l
  induction l with
  | nil => intro acc hacc; exact hacc
  | cons a l ih =>
    intro acc hacc
    rw [List.foldl_cons]
    exact ih (insertOne acc a) (insertOne_pairwise hacc)

theorem uniq_pairwise (l : List Item) :
    (uniqItemsByBag l).Pairwise (fun a b => mergeKey a ≠ mergeKey b) :=
  uniqFold_pairwise l [] List.Pairwise.nil

theorem uniqFold_of_pairwise :
    ∀ (l acc : List Item), (acc ++ l).Pairwise (fun a b => mergeKey a ≠ mergeKey b) →
      l.foldl insertOne acc = acc ++ l := by
  intro l
  induction l with
  | nil => intro acc _; simp
  | cons a l ih =>
    intro acc hpw
    have hnotin : acc.any (fun e => decide (mergeKey e = mergeKey a)) = false := by
      rw [Bool.eq_false_iff]
      intro hany
      rcases List.any_eq_true.mp hany with ⟨e, he, hke⟩
      have := (List.pairwise_append.mp hpw).2.2 e he a (List.mem_cons_self a l)
      exact this (of_decide_eq_true hke)
    have hstep : insertOne acc a = acc ++ [a] := by
      unfold insertOne
      rw [hnotin]
      simp
    rw [List.foldl_cons, hstep, ih (acc ++ [a]) (by simpa using hpw)]
    simp

theorem uniq_eq_self_of_pairwise {l : List Item}
    (h : l.Pairwise (fun a b => mergeKey a ≠ mergeKey b)) : uniqItemsByBag l = l :=
  uniqFold_of_pairwise l [] (by simpa using h)

/-- Claim C7: the consolidation step (drop non-positive quantities,
merge by the (bag, category, name) merge key summing quantities, sort by
bag then category then name) is idempotent. -/
theorem consolidate_idem (l : List Item) : consolidate (consolidate l) = consolidate l := by
  unfold consolidate
  have hposIn : ∀ e ∈ (l.filter (fun x => x.quantity.isPos)), e.quantity.isPos = true :=
    fun e he => (List.mem_filter.mp he).2
  have hpos : ∀ e ∈ uniqItemsByBag (l.filter (fun x => x.quantity.isPos)),
      e.quantity.isPos = true := uniq_allPos hposIn
  have hposS : ∀ e ∈ sortItems (uniqItemsByBag (l.filter (fun x => x.quantity.isPos))),
      e.quantity.isPos = true :=
    fun e he => hpos e ((sortItems_perm _).mem_iff.mp he)
  rw [List.filter_eq_self.mpr hposS]
  have hpw : (uniqItemsByBag (l.filter (fun x => x.quantity.isPos))).Pairwise
      (fun a b => mergeKey a ≠ mergeKey b) := uniq_pairwise _
  have hpwS : (sortItems (uniqItemsByBag (l.filter (fun x => x.quantity.isPos)))).Pairwise
      (fun a b => mergeKey a ≠ mergeKey b) :=
    ((sortItems_perm _).pairwise_iff (fun h hh => h hh.symm)).mpr hpw
  rw [uniq_eq_self_of_pairwise hpwS]
  exact List.Sorted.insertionSort_eq (List.sorted_insertionSort itemRel _)

/-! ### Claims C8, C9, C10: the override layer and determinism -/

theorem stableKey_applyOne (o : String → Option String) (it : Item) :
    stableKey (applyOne o it) = stableKey it := by
  unfold applyOne
  rcases h : o (stableKey it) with _ | v
  · simp
  · by_cases hv : v = "" <;> simp [hv, stableKey]

theorem applyOne_none {o : String → Option String} {it : Item}
    (h : o (stableKey it) = none) : applyOne o it = it := by
  unfold applyOne
  rw [h]

theorem applyOne_category (o : String → Option String) (it : Item) :
    (applyOne o it).category = it.category := by
  unfold applyOne
  rcases h : o (stableKey it) with _ | v
  · simp
  · by_cases hv : v = "" <;> simp [hv]

theorem applyOne_name (o : String → Option String) (it : Item) :
    (applyOne o it).name = it.name := by
  unfold applyOne
  rcases h : o (stableKey it) with _ | v
  · simp
  · by_cases hv : v = "" <;> simp [hv]

theorem applyOne_quantity (o : String → Option String) (it : Item) :
    (applyOne o it).quantity = it.quantity := by
  unfold applyOne
  rcases h : o (stableKey it) with _ | v
  · simp
  · by_cases hv : v = "" <;> simp [hv]

theorem applyOne_idem (o : String → Option String) (it : Item) :
    applyOne o (applyOne o it) = applyOne o it := by
  conv_lhs => rw [applyOne]
  rw [stableKey_applyOne]
  rcases h : o (stableKey it) with _ | v
  · simp
  · by_cases hv : v = "" <;> simp [hv, applyOne, h]

/-- Claim C8: applying an override map is idempotent, and two override
maps with disjoint key domains commute. -/
theorem applyOverrides_idem_comm (items : List Item) (o1 o2 : String → Option String)
    (hdisj : ∀ k, o1 k = none ∨ o2 k = none) :
    applyOverrides (applyOverrides items o1) o1 = applyOverrides items o1 ∧
    applyOverrides (applyOverrides items o1) o2 =
      applyOverrides (applyOverrides items o2) o1 := by
  constructor
  · unfold applyOverrides
    rw [List.map_map]
    exact List.map_congr_left (fun a _ => applyOne_idem o1 a)
  · unfold applyOverrides
    rw [List.map_map, List.map_map]
    apply List.map_congr_left
    intro a _
    show applyOne o2 (applyOne o1 a) = applyOne o1 (applyOne o2 a)
    rcases hdisj (stableKey a) with h | h
    · have e1 : applyOne o1 a = a := applyOne_none h
      have e2 : applyOne o1 (applyOne o2 a) = applyOne o2 a :=
        applyOne_none (by rw [stableKey_applyOne]; exact h)
      rw [e1, e2]
    · have e1 : applyOne o2 a = a := applyOne_none h
      have e2 : applyOne o2 (applyOne o1 a) = applyOne o1 a :=
        applyOne_none (by rw [stableKey_applyOne]; exact h)
      rw [e1, e2]

/-- Witness for C8 on a one-item list with one override and the empty
override map (disjoint domains). -/
theorem applyOverrides_idem_comm_witness :
    (∀ k, exOvHat k = none ∨ exOvNone k = none) ∧
    (applyOverrides (applyOverrides [exItemHat] exOvHat) exOvHat =
      applyOverrides [exItemHat] exOvHat ∧
     applyOverrides (applyOverrides [exItemHat] exOvHat) exOvNone =
      applyOverrides (applyOverrides [exItemHat] exOvNone) exOvHat) :=
  ⟨fun _ => Or.inr rfl,
   applyOverrides_idem_comm [exItemHat] exOvHat exOvNone (fun _ => Or.inr rfl)⟩

/-- Claim C9: the generation pipeline is deterministic: two runs on
equal inputs produce equal (hence order-identical) output lists.  The
pipeline is embedded as a pure function, so purity is the modelling
statement and determinism is its consequence. -/
theorem generate_deterministic (st1 st2 : GenState) (h : st1 = st2) :
    generatePackingList st1 = generatePackingList st2 := by
  rw [h]

/-- Witness for C9: two identical runs on a concrete state. -/
theorem generate_deterministic_witness :
    generatePackingList exStateJapan = generatePackingList exStateJapan :=
  generate_deterministic exStateJapan exStateJapan rfl

/-- Claim C10: applyOverrides preserves length and, pointwise, the
category, name and quantity of every item; only the bag may change, and
an item whose identity key is absent from the map is returned
unchanged. -/
theorem applyOverrides_frame (items : List Item) (ov : String → Option String)
    (i : Nat) (h : i < items.length) :
    (applyOverrides items ov).length = items.length ∧
    ∃ hi : i < (applyOverrides items ov).length,
      ((applyOverrides items ov).get ⟨i, hi⟩).category = (items.get ⟨i, h⟩).category ∧
      ((applyOverrides items ov).get ⟨i, hi⟩).name = (items.get ⟨i, h⟩).name ∧
      ((applyOverrides items ov).get ⟨i, hi⟩).quantity = (items.get ⟨i, h⟩).quantity ∧
      (ov (stableKey (items.get ⟨i, h⟩)) = none →
        (applyOverrides items ov).get ⟨i, hi⟩ = items.get ⟨i, h⟩) := by
  have hlen : (applyOverrides items ov).length = items.length := by
    unfold applyOverrides
    exact List.length_map _ _
  have hi : i < (applyOverrides items ov).length := by rw [hlen]; exact h
  have hget : (applyOverrides items ov).get ⟨i, hi⟩ = applyOne ov (items.get ⟨i, h⟩) := by
    unfold applyOverrides
    simp [List.get_eq_getElem, List.getElem_map]
  refine ⟨hlen, hi, ?_, ?_, ?_, ?_⟩
  · rw [hget]
    exact applyOne_category ov _
  · rw [hget]
    exact applyOne_name ov _
  · rw [hget]
    exact applyOne_quantity ov _
  · intro hnone
    rw [hget]
    exact applyOne_none hnone

/-- Witness for C10 on a one-item list with an override present for the
item's identity key. -/
theorem applyOverrides_frame_witness :
    (applyOverrides [exItemHat] exOvHat).length = [exItemHat].length ∧
    ∃ hi : 0 < (applyOverrides [exItemHat] exOvHat).length,
      ((applyOverrides [exItemHat] exOvHat).get ⟨0, hi⟩).category =
        ([exItemHat].get ⟨0, by decide⟩).category ∧
      ((applyOverrides [exItemHat] exOvHat).get ⟨0, hi⟩).name =
        ([exItemHat].get ⟨0, by decide⟩).name ∧
      ((applyOverrides [exItemHat] exOvHat).get ⟨0, hi⟩).quantity =
        ([exItemHat].get ⟨0, by decide⟩).quantity ∧
      (exOvHat (stableKey ([exItemHat].get ⟨0, by decide⟩)) = none →
        (applyOverrides [exItemHat] exOvHat).get ⟨0, hi⟩ =
          [exItemHat].get ⟨0, by decide⟩) :=
  applyOverrides_frame [exItemHat] exOvHat 0 (by decide)
